/-
Verification of the cross-lingual NER training script
(`scripts/run_uda_ner.py`) against its specification.

The Python source is shallowly embedded below.  External collaborators
(the BERT encoder, the WordPiece tokenizer, the perturbation function)
are passed in as function parameters, exactly as the spec treats them:
the tokenizer is a pure function from a word to its subword pieces and
from a piece to an integer id.  Fallible Python operations (dict lookup
raising KeyError, list indexing raising IndexError, `assert`) are
embedded with `Option`/`Except`.

Two helper modules of the repository are imported by the script but are
not part of the visible source (`scripts/tsa.py` and
`scripts/conlleval.py`); the definitions standing in for them are
modelled from the spec and marked as such in their doc comments.
-/
import Mathlib

set_option maxHeartbeats 1000000

/-! ## Basic helpers -/

/-- Python's `str.startswith`, as a character-level prefix test.
(Lean's own `String.startsWith` works byte-wise and does not reduce in
the kernel, so concrete instances could not be checked with it.) -/
def strStartsWith (s pre : String) : Bool :=
  pre.data.isPrefixOf s.data

/-- Lexicographic comparison of character lists by code point. -/
def charListLe : List Char → List Char → Bool
  | [], _ => true
  | _ :: _, [] => false
  | a :: as, b :: bs =>
    if a.toNat < b.toNat then true
    else if b.toNat < a.toNat then false
    else charListLe as bs

/-- Python's string ordering used by `sorted`: lexicographic by code
point. -/
def pyStrLe (a b : String) : Bool :=
  charListLe a.data b.data

/-- Python list slicing `l[:n]` for a possibly negative bound `n`:
a nonnegative bound keeps the first `n` elements, a negative bound
drops the last `-n` elements (clamped at the empty list). -/
def pyTake (n : Int) (l : List α) : List α :=
  if 0 ≤ n then l.take n.toNat else l.take (l.length - (-n).toNat)

/-- Effectful map over a list in the `Option` monad: embeds Python list
comprehensions whose body can raise (KeyError / IndexError).  The whole
result is `none` as soon as one element fails. -/
def listMapM (f : α → Option β) : List α → Option (List β)
  | [] => some []
  | a :: as =>
    match f a, listMapM f as with
    | some b, some bs => some (b :: bs)
    | _, _ => none

/-! ## Data model: examples and the label vocabulary -/

/-- One labeled sentence: word tokens with parallel labels
(class `NERExample` in the source; the shared `label_vocab` back
reference is passed separately in this embedding). -/
structure NERExample where
  tokens : List String
  labels : List String
deriving Repr, DecidableEq

/-- One unlabeled sentence (class `UnsupervisedExample` in the source). -/
structure UnsupervisedExample where
  tokens : List String
deriving Repr, DecidableEq

/-- The dict comprehension `{v: k for k, v in dict(enumerate(labels)).items()}`
of `LabelVocab.build`, as an association list: each label is paired with
its index, starting at `k`.  (All our label lists are duplicate-free, so
first-match lookup agrees with the Python dict.) -/
def labelsDictFrom : List String → ℕ → List (String × ℕ)
  | [], _ => []
  | l :: ls, k => (l, k) :: labelsDictFrom ls (k + 1)

/-- State of class `LabelVocab`: the accumulated label set (`label_set`,
a Python set, embedded as the list of inserted labels, deduplicated on
read), the frozen ordered label list (`labels`) and the label-to-id
dict (`labels_dict`). -/
structure LabelVocab where
  labelSet : List String
  labels : List String
  labelsDict : List (String × ℕ)
deriving Repr, DecidableEq

/-- `LabelVocab.build`, line for line:
`self.labels = ["O"] + sorted(list(self.label_set - {"O"}))`. -/
def buildLabels (labelSet : List String) : List String :=
  "O" :: List.insertionSort (fun a b => pyStrLe a b = true) (labelSet.dedup.filter (fun l => l ≠ "O"))

/-- `LabelVocab.build`: freezes the ordered label list and the
label-to-id dict.  The accumulated set is untouched. -/
def LabelVocab.build (v : LabelVocab) : LabelVocab :=
  { v with labels := buildLabels v.labelSet
           labelsDict := labelsDictFrom (buildLabels v.labelSet) 0 }

/-- `LabelVocab.update`: `self.label_set.update(example.labels)` -- only
the accumulated set grows; the frozen list and dict are untouched. -/
def LabelVocab.update (v : LabelVocab) (ex : NERExample) : LabelVocab :=
  { v with labelSet := v.labelSet ++ ex.labels }

/-- `LabelVocab.convert_labels_to_ids`: dict lookup per label, KeyError
(missing label) embedded as `none`. -/
def LabelVocab.convertLabelsToIds (v : LabelVocab) (ls : List String) : Option (List ℕ) :=
  listMapM (fun l => List.lookup l v.labelsDict) ls

/-- `LabelVocab.convert_ids_to_labels`: list indexing per id, IndexError
(id out of range) embedded as `none`. -/
def LabelVocab.convertIdsToLabels (v : LabelVocab) (ids : List ℕ) : Option (List String) :=
  listMapM (fun i => v.labels.get? i) ids

/-- `LabelVocab.__len__`: `len(self.label_set)` -- the number of
distinct labels accumulated so far. -/
def LabelVocab.size (v : LabelVocab) : ℕ :=
  v.labelSet.dedup.length

/-! ## Feature records -/

/-- Class `InputFeatures`.  `token_to_orig_map` is the dict
`{(token_index + 1): orig_index for token_index, orig_index in
enumerate(tok_to_orig_index)}`; we store the underlying list
`tok_to_orig_index` and look positions up through it.  `labelIds`
is `none` for unsupervised features (the source passes
`label_ids=None`). -/
structure InputFeatures where
  uniqueId : ℕ
  exampleIndex : ℕ
  tokens : List String
  tokToOrig : List ℕ
  inputIds : List ℕ
  inputMask : List ℕ
  lossMask : List ℕ
  segmentIds : List ℕ
  labelIds : Option (List ℕ)
deriving Repr, DecidableEq

/-- Lookup in `token_to_orig_map` at key `i`: the dict's keys are
`1 .. len(tok_to_orig_index)`, key `i` mapping to
`tok_to_orig_index[i-1]`; a missing key (KeyError) is `none`. -/
def tokenToOrigMapLookup (f : InputFeatures) (i : ℕ) : Option ℕ :=
  if i = 0 then none else f.tokToOrig.get? (i - 1)

/-! ## Word-to-subword alignment (`convert_examples_to_features`) -/

/-- The per-example alignment loop of `convert_examples_to_features`
(source lines 245-255): for each (word, label) pair -- `zip` stops at
the shorter sequence -- emit the word's subword pieces, and for each
piece record the original word index and replicate the word's label.
Returns `(all_tokens, tok_to_orig_index, all_labels)`. -/
def alignWords (tokenize : String → List String) :
    List String → List String → ℕ → List String × List ℕ × List String
  | [], _, _ => ([], [], [])
  | _ :: _, [], _ => ([], [], [])
  | w :: ws, lab :: labs, i =>
    let subs := tokenize w
    let rest := alignWords tokenize ws labs (i + 1)
    (subs ++ rest.1, subs.map (fun _ => i) ++ rest.2.1, subs.map (fun _ => lab) ++ rest.2.2)

/-- The alignment loop of `convert_unsupervised_examples_to_features`
(source lines 350-358): same as `alignWords` without labels. -/
def alignWordsUnsup (tokenize : String → List String) :
    List String → ℕ → List String × List ℕ
  | [], _ => ([], [])
  | w :: ws, i =>
    let subs := tokenize w
    let rest := alignWordsUnsup tokenize ws (i + 1)
    (subs ++ rest.1, subs.map (fun _ => i) ++ rest.2)

/-- Body of `convert_examples_to_features` for one labeled example
(source lines 243-337), with `vocab` already built.  `tokenToId` embeds
`tokenizer.convert_tokens_to_ids` applied token-wise (the tokenizer
collaborator maps pieces to ids one-to-one).  The truncation
`all_tokens[:max_seq_length - 2]` keeps Python slice semantics via
`pyTake`.  The five `assert len(...) == max_seq_length` statements are
embedded as the final guard: an `AssertionError` yields `none`. -/
def convertOne (vocab : LabelVocab) (tokenize : String → List String)
    (tokenToId : String → ℕ) (maxSeqLength : ℕ) (exampleIndex : ℕ)
    (ex : NERExample) : Option InputFeatures :=
  let a := alignWords tokenize ex.tokens ex.labels 0
  let maxTokens : Int := (maxSeqLength : Int) - 2
  let allTokens := pyTake maxTokens a.1
  let allLabels := pyTake maxTokens a.2.2
  let tokens := "[CLS]" :: (allTokens ++ ["[SEP]"])
  let segmentIds0 : List ℕ := List.replicate tokens.length 0
  let labels := "O" :: (allLabels ++ ["O"])
  let inputIds0 := tokens.map tokenToId
  match vocab.convertLabelsToIds labels with
  | none => none
  | some labelIds0 =>
    let inputMask0 : List ℕ := List.replicate inputIds0.length 1
    let lossMask0 : List ℕ := tokens.map (fun t => if strStartsWith t "##" then 0 else 1)
    let pad := maxSeqLength - inputIds0.length
    let inputIds := inputIds0 ++ List.replicate pad 0
    let inputMask := inputMask0 ++ List.replicate pad 0
    let lossMask := lossMask0 ++ List.replicate pad 0
    let segmentIds := segmentIds0 ++ List.replicate pad 0
    let labelIds := labelIds0 ++ List.replicate pad 0
    if inputIds.length = maxSeqLength ∧ inputMask.length = maxSeqLength ∧
        lossMask.length = maxSeqLength ∧ segmentIds.length = maxSeqLength ∧
        labelIds.length = maxSeqLength then
      some { uniqueId := 1000000000 + exampleIndex
             exampleIndex := exampleIndex
             tokens := tokens
             tokToOrig := a.2.1
             inputIds := inputIds
             inputMask := inputMask
             lossMask := lossMask
             segmentIds := segmentIds
             labelIds := some labelIds }
    else none

/-- The loop of `convert_examples_to_features` over the example list,
assigning `unique_id = 1000000000 + example_index`. -/
def convertAll (vocab : LabelVocab) (tokenize : String → List String)
    (tokenToId : String → ℕ) (maxSeqLength : ℕ) :
    ℕ → List NERExample → Option (List InputFeatures)
  | _, [] => some []
  | i, ex :: exs =>
    match convertOne vocab tokenize tokenToId maxSeqLength i ex,
          convertAll vocab tokenize tokenToId maxSeqLength (i + 1) exs with
    | some f, some fs => some (f :: fs)
    | _, _ => none

/-- `convert_examples_to_features`: builds the shared vocabulary first
(source line 236: `label_vocab.build()`), then converts every example. -/
def convertExamplesToFeatures (vocab : LabelVocab) (tokenize : String → List String)
    (tokenToId : String → ℕ) (maxSeqLength : ℕ) (examples : List NERExample) :
    Option (List InputFeatures) :=
  convertAll vocab.build tokenize tokenToId maxSeqLength 0 examples

/-- Body of `convert_unsupervised_examples_to_features` for one example
(source lines 348-429): as `convertOne` without labels;
`unique_id = 2000000000 + example_index` and `label_ids=None`. -/
def convertUnsupervisedOne (tokenize : String → List String)
    (tokenToId : String → ℕ) (maxSeqLength : ℕ) (exampleIndex : ℕ)
    (ex : UnsupervisedExample) : Option InputFeatures :=
  let a := alignWordsUnsup tokenize ex.tokens 0
  let maxTokens : Int := (maxSeqLength : Int) - 2
  let allTokens := pyTake maxTokens a.1
  let tokens := "[CLS]" :: (allTokens ++ ["[SEP]"])
  let segmentIds0 : List ℕ := List.replicate tokens.length 0
  let inputIds0 := tokens.map tokenToId
  let inputMask0 : List ℕ := List.replicate inputIds0.length 1
  let lossMask0 : List ℕ := tokens.map (fun t => if strStartsWith t "##" then 0 else 1)
  let pad := maxSeqLength - inputIds0.length
  let inputIds := inputIds0 ++ List.replicate pad 0
  let inputMask := inputMask0 ++ List.replicate pad 0
  let lossMask := lossMask0 ++ List.replicate pad 0
  let segmentIds := segmentIds0 ++ List.replicate pad 0
  if inputIds.length = maxSeqLength ∧ inputMask.length = maxSeqLength ∧
      lossMask.length = maxSeqLength ∧ segmentIds.length = maxSeqLength then
    some { uniqueId := 2000000000 + exampleIndex
           exampleIndex := exampleIndex
           tokens := tokens
           tokToOrig := a.2
           inputIds := inputIds
           inputMask := inputMask
           lossMask := lossMask
           segmentIds := segmentIds
           labelIds := none }
  else none

/-- The loop of `convert_unsupervised_examples_to_features`. -/
def convertUnsupervisedAll (tokenize : String → List String)
    (tokenToId : String → ℕ) (maxSeqLength : ℕ) :
    ℕ → List UnsupervisedExample → Option (List InputFeatures)
  | _, [] => some []
  | i, ex :: exs =>
    match convertUnsupervisedOne tokenize tokenToId maxSeqLength i ex,
          convertUnsupervisedAll tokenize tokenToId maxSeqLength (i + 1) exs with
    | some f, some fs => some (f :: fs)
    | _, _ => none

/-- `convert_unsupervised_examples_to_features`. -/
def convertUnsupervisedExamplesToFeatures (tokenize : String → List String)
    (tokenToId : String → ℕ) (maxSeqLength : ℕ)
    (examples : List UnsupervisedExample) : Option (List InputFeatures) :=
  convertUnsupervisedAll tokenize tokenToId maxSeqLength 0 examples

/-! ## Prediction reconstruction (`write_predictions`) -/

/-- Python `enumerate`, with an explicit start index. -/
def enumTokens : ℕ → List String → List (ℕ × String)
  | _, [] => []
  | i, t :: ts => (i, t) :: enumTokens (i + 1) ts

/-- The reconstruction loop of `write_predictions` (source lines
450-460): walk the feature's tokens in order with their enumerate
index, skip `[CLS]`/`[SEP]`, skip positions whose `token_to_orig_map`
entry repeats the last retained one (`last_orig_index`, initialised to
`-1`), and at each retained head wordpiece collect the predicted label
`raw_labels[i]` and the true label `example.labels[orig_index]`.
Failing dict/list lookups (KeyError / IndexError) are `none`. -/
def predWalk (origAt : ℕ → Option ℕ) (rawLabels exLabels : List String) :
    List (ℕ × String) → Int → Option (List String × List String)
  | [], _ => some ([], [])
  | (i, t) :: rest, last =>
    if t = "[CLS]" ∨ t = "[SEP]" then
      predWalk origAt rawLabels exLabels rest last
    else
      match origAt i with
      | none => none
      | some o =>
        if (o : Int) = last then
          predWalk origAt rawLabels exLabels rest last
        else
          match rawLabels.get? i, exLabels.get? o,
                predWalk origAt rawLabels exLabels rest (o : Int) with
          | some r, some tl, some (ps, ts) => some (r :: ps, tl :: ts)
          | _, _, _ => none

/-- Per-example body of `write_predictions` (source lines 444-460):
`max_scores` are the per-position argmax label ids of the example's
logits; they are mapped back to label strings through the example's
vocabulary (`convert_ids_to_labels`) and walked with `predWalk`.
Returns `(predicted_labels, true_labels)`. -/
def writePredictionsOne (vocab : LabelVocab) (ex : NERExample)
    (f : InputFeatures) (maxScores : List ℕ) :
    Option (List String × List String) :=
  match vocab.convertIdsToLabels maxScores with
  | none => none
  | some rawLabels =>
    predWalk (tokenToOrigMapLookup f) rawLabels ex.labels (enumTokens 0 f.tokens) (-1)

/-! ## Training signal annealing (TSA)

Modelled from the spec: the module `scripts/tsa.py` (classes `TSA`,
`LogTSA`, `LinearTSA`, `ExpTSA`, `ConstantTSA`) is imported by the
script but is not part of the visible source.  The spec (section 4.2)
requires: a threshold `τ(step)` that is monotonically non-decreasing in
`step/T`, with `τ(0) = 1/K` and `τ(T) = 1`, where the `log` variant
grows fast then flattens, `linear` grows proportionally, `exp` grows
slowly then accelerates, and `constant` holds a fixed value; and an
`apply` that retains exactly the positions whose gold-label softmax
probability is below the current threshold, intersected with the
existing loss mask.  The spec explicitly leaves the closed-form curves
open, so the concave/convex polynomials below stand in for the
`log`/`exp` shapes. -/

/-- The four annealing-schedule shapes selected by the `--tsa` flag.
`constant` carries its fixed value. -/
inductive TSAShape where
  | log
  | linear
  | exp
  | constant (value : ℚ)
deriving Repr, DecidableEq

/-- Modelled from the spec: the schedule's progress curve `α(r)` for
`r = step/T ∈ [0, 1]`, one monotone curve per shape matching the
qualitative description (fast-then-flat / proportional /
slow-then-fast). -/
def tsaAlpha : TSAShape → ℚ → ℚ
  | .log, r => r * (2 - r)
  | .linear, r => r
  | .exp, r => r * r
  | .constant _, _ => 0

/-- Modelled from the spec: `threshold(step) = 1/K + α(step/T) * (1 - 1/K)`
for the three annealed shapes; the `constant` shape holds its fixed
value at every step. -/
def tsaThreshold (sh : TSAShape) (numClasses : ℚ) (numSteps : ℕ) (step : ℕ) : ℚ :=
  match sh with
  | .constant c => c
  | _ => 1 / numClasses + tsaAlpha sh ((step : ℚ) / (numSteps : ℚ)) * (1 - 1 / numClasses)

/-- Scheduler state: shape, class count `K` (a float in the source:
`num_classes=float(args.tsa.split("_")[-1])`), total step budget `T`
and the step counter advanced by `tsa.step()`. -/
structure TSAState where
  shape : TSAShape
  numClasses : ℚ
  numSteps : ℕ
  step : ℕ
deriving Repr, DecidableEq

/-- `tsa.step()`: the counter only ever increases. -/
def TSAState.stepAdvance (s : TSAState) : TSAState :=
  { s with step := s.step + 1 }

/-- The threshold at the scheduler's current step. -/
def TSAState.currentThreshold (s : TSAState) : ℚ :=
  tsaThreshold s.shape s.numClasses s.numSteps s.step

/-- One batch position as seen by the supervised loss: the softmax
probability the (black-box) encoder assigns to the position's gold
label, the position's cross-entropy contribution (both produced by the
external model collaborator), and its loss-mask bit. -/
structure TSAPos where
  goldProb : ℚ
  nll : ℚ
  lossMaskBit : ℕ
deriving Repr, DecidableEq

/-- Modelled from the spec: `tsa.apply(logits, labels, loss_mask)`
retains exactly the positions whose gold-label probability is below the
current threshold, intersected with the existing loss mask. -/
def tsaApply (threshold : ℚ) (ps : List TSAPos) : List TSAPos :=
  ps.filter (fun p => decide (p.goldProb < threshold) && (p.lossMaskBit == 1))

/-- `CrossEntropyLoss()` reduction over the active (`loss_mask == 1`)
positions (source lines 80-86): the mean of the per-position losses; a
mean over an empty selection is the runtime error embedded as
`Except.error`. -/
def ceLoss (ps : List TSAPos) : Except String ℚ :=
  let active := ps.filter (fun p => p.lossMaskBit == 1)
  if active.length = 0 then
    Except.error "cross entropy over an empty selection"
  else
    Except.ok ((active.map TSAPos.nll).sum / (active.length : ℚ))

/-- The supervised branch of `BertForUdaNer.forward` (source lines
71-89): when a scheduler is passed, advance its step and filter the
batch through `apply`; if nothing survives (`if not(len(logits)):
return 0`, the `Z == 0` comment in the source) the supervised loss is
the constant `0`; otherwise the cross-entropy loss over the active
positions. -/
def forwardSupervisedLoss (tsa : Option TSAState) (ps : List TSAPos) : Except String ℚ :=
  let filtered := match tsa with
    | some st => tsaApply st.stepAdvance.currentThreshold ps
    | none => ps
  if filtered.length = 0 then Except.ok 0
  else ceLoss filtered

/-! ## Chunk evaluation and the unsupervised evaluator -/

/-- Tag type of a BIO label: `"B-PER" ↦ "PER"`; the background tag
`"O"` has none. -/
def bioTagType (l : String) : Option String :=
  if l = "O" then none else some (l.drop 2)

/-- Modelled from the spec: entity-span extraction for CoNLL-style
chunk evaluation (`scripts/conlleval.py` is imported but not part of
the visible source).  A span is `(start, stop, type)`; a `B-` label or
a change of type starts a new span. -/
def bioSpansAux : List String → ℕ → Option (ℕ × String) → List (ℕ × ℕ × String)
  | [], i, some (s, ty) => [(s, i, ty)]
  | [], _, none => []
  | l :: ls, i, cur =>
    match bioTagType l with
    | none =>
      match cur with
      | some (s, ty) => (s, i, ty) :: bioSpansAux ls (i + 1) none
      | none => bioSpansAux ls (i + 1) none
    | some ty =>
      match cur with
      | some (s, cty) =>
        if cty = ty ∧ ¬ strStartsWith l "B-" then
          bioSpansAux ls (i + 1) (some (s, cty))
        else
          (s, i, cty) :: bioSpansAux ls (i + 1) (some (i, ty))
      | none => bioSpansAux ls (i + 1) (some (i, ty))

/-- Entity spans of a label sequence. -/
def bioSpans (ls : List String) : List (ℕ × ℕ × String) :=
  bioSpansAux ls 0 none

/-- Modelled from the spec: `conlleval.evaluate` -- precision, recall
and F1 by exact-match entity-span scoring.  The divisions by the number
of predicted spans, gold spans and by `precision + recall` are
unguarded in this model (a `ZeroDivisionError` is `Except.error`); the
caller is responsible for the degenerate cases. -/
def conllEvaluate (trueLabels predLabels : List String) : Except String (ℚ × ℚ × ℚ) :=
  let t := bioSpans trueLabels
  let p := bioSpans predLabels
  let correct : ℚ := ((p.filter (fun s => t.contains s)).length : ℚ)
  if p.length = 0 ∨ t.length = 0 then
    Except.error "division by zero"
  else
    let prec := correct / (p.length : ℚ)
    let rec_ := correct / (t.length : ℚ)
    if prec + rec_ = 0 then Except.error "division by zero"
    else Except.ok (prec, rec_, 2 * prec * rec_ / (prec + rec_))

/-- The scoring tail of `evaluate_model_unsupervised` (source lines
1006-1010): if the set of reconstructed clean labels is exactly
`{"O"}` (no names recognised), report `(0, 0, 0)` instead of scoring;
otherwise hand the label sequences to `conlleval.evaluate`.  The
Python test `set(all_original_labels) == {"O"}` is embedded as
`dedup = ["O"]`. -/
def evaluateUnsupervisedLabels (allOriginalLabels allPerturbedLabels : List String) :
    Except String (ℚ × ℚ × ℚ) :=
  if allOriginalLabels.dedup = ["O"] then Except.ok (0, 0, 0)
  else conllEvaluate allOriginalLabels allPerturbedLabels

/-! ## Feature caching -/

/-- Outcome of reading a cached feature file: deserialized successfully,
file missing, or present but undeserializable (`pickle.load` raising). -/
inductive CacheOutcome where
  | good (features : List InputFeatures)
  | missing
  | corrupt
deriving Repr, DecidableEq

/-- The `try/except` cache logic for supervised training features
(source lines 697-710): a readable cache is used as-is; a missing or
corrupt cache triggers recomputation -- the bare `except:` catches both
failure modes -- and a fresh cache write.  Returns the feature list and
the cache file content after the call; an assertion failure inside the
recomputation (which is outside the `try`) propagates as `none`. -/
def loadTrainFeatures (cache : CacheOutcome) (vocab : LabelVocab)
    (tokenize : String → List String) (tokenToId : String → ℕ)
    (maxSeqLength : ℕ) (examples : List NERExample) :
    Option (List InputFeatures × CacheOutcome) :=
  match cache with
  | .good fs => some (fs, .good fs)
  | _ =>
    match convertExamplesToFeatures vocab tokenize tokenToId maxSeqLength examples with
    | some fs => some (fs, .good fs)
    | none => none

/-- The same `try/except` cache logic inside `_load_unsupervised_data`
(source lines 894-907). -/
def loadUnsupervisedFeatures (cache : CacheOutcome)
    (tokenize : String → List String) (tokenToId : String → ℕ)
    (maxSeqLength : ℕ) (examples : List UnsupervisedExample) :
    Option (List InputFeatures × CacheOutcome) :=
  match cache with
  | .good fs => some (fs, .good fs)
  | _ =>
    match convertUnsupervisedExamplesToFeatures tokenize tokenToId maxSeqLength examples with
    | some fs => some (fs, .good fs)
    | none => none

/-! ## Concrete instances for witnesses and counterexamples -/

/-- A tokenizer producing one subword per word (the spec's
"one-subword-per-word" scenario). -/
def demoTokenize (w : String) : List String := [w]

/-- A piece-to-id map for the scenario; the concrete ids are irrelevant
to the claims. -/
def demoTokenToId (_ : String) : ℕ := 1

/-- The spec's scenario sentence with its labels. -/
def johnExample : NERExample :=
  { tokens := ["John", "lives", "in", "Paris"]
    labels := ["B-PER", "O", "O", "B-LOC"] }

/-- The vocabulary accumulated by `read_ner_examples` over the scenario
sentence (an `update` with the example's labels). -/
def johnVocab : LabelVocab :=
  LabelVocab.update { labelSet := [], labels := [], labelsDict := [] } johnExample

/-! ## General lemmas about the helpers -/

theorem listMapM_append (f : α → Option β) :
    ∀ (l₁ l₂ : List α) (r₁ r₂ : List β),
    listMapM f l₁ = some r₁ → listMapM f l₂ = some r₂ →
    listMapM f (l₁ ++ l₂) = some (r₁ ++ r₂) := by
  intro l₁
  induction l₁ with
  | nil =>
    intro l₂ r₁ r₂ h₁ h₂
    simp only [listMapM] at h₁
    cases h₁
    simpa using h₂
  | cons a as ih =>
    intro l₂ r₁ r₂ h₁ h₂
    simp only [listMapM] at h₁
    cases hfa : f a with
    | none => rw [hfa] at h₁; exact absurd h₁ (by simp)
    | some b =>
      rw [hfa] at h₁
      cases hrest : listMapM f as with
      | none => rw [hrest] at h₁; exact absurd h₁ (by simp)
      | some bs =>
        rw [hrest] at h₁
        cases h₁
        show listMapM f (a :: (as ++ l₂)) = some ((b :: bs) ++ r₂)
        simp only [listMapM, hfa, ih l₂ bs r₂ hrest h₂, List.cons_append]

theorem listMapM_replicate (f : α → Option β) (a : α) (b : β) (h : f a = some b) :
    ∀ n, listMapM f (List.replicate n a) = some (List.replicate n b) := by
  intro n
  induction n with
  | zero => rfl
  | succ n ih => simp only [List.replicate_succ, listMapM, h, ih]

theorem listMapM_roundtrip (f : α → Option β) (g : β → Option α)
    (h : ∀ a b, f a = some b → g b = some a) :
    ∀ (as : List α) (bs : List β), listMapM f as = some bs →
    listMapM g bs = some as := by
  intro as
  induction as with
  | nil =>
    intro bs hm
    simp only [listMapM] at hm
    cases hm
    rfl
  | cons a as ih =>
    intro bs hm
    simp only [listMapM] at hm
    cases hfa : f a with
    | none => rw [hfa] at hm; exact absurd hm (by simp)
    | some b =>
      rw [hfa] at hm
      cases hrest : listMapM f as with
      | none => rw [hrest] at hm; exact absurd hm (by simp)
      | some bs' =>
        rw [hrest] at hm
        cases hm
        simp only [listMapM, h a b hfa, ih bs' hrest]

theorem lookup_labelsDictFrom :
    ∀ (L : List String) (k : ℕ) (l : String) (idx : ℕ),
    List.lookup l (labelsDictFrom L k) = some idx →
    ∃ j, idx = k + j ∧ L.get? j = some l := by
  intro L
  induction L with
  | nil => intro k l idx h; simp [labelsDictFrom, List.lookup] at h
  | cons a as ih =>
    intro k l idx h
    simp only [labelsDictFrom, List.lookup] at h
    by_cases hla : l = a
    · subst hla
      rw [beq_self_eq_true] at h
      simp only [Option.some.injEq] at h
      exact ⟨0, by omega, by simp⟩
    · rw [beq_eq_false_iff_ne.mpr hla] at h
      obtain ⟨j, hj, hget⟩ := ih (k + 1) l idx h
      exact ⟨j + 1, by omega, by simpa using hget⟩

theorem replicate_get? (a : α) : ∀ (n i : ℕ), i < n →
    (List.replicate n a).get? i = some a := by
  intro n
  induction n with
  | zero => intro i h; omega
  | succ n ih =>
    intro i h
    cases i with
    | zero => rfl
    | succ i =>
      rw [List.replicate_succ, List.get?_cons_succ]
      exact ih i (by omega)

theorem dedup_eq_single [DecidableEq α] (a : α) :
    ∀ (l : List α), l ≠ [] → (∀ x ∈ l, x = a) → l.dedup = [a] := by
  intro l
  induction l with
  | nil => intro h; exact absurd rfl h
  | cons x xs ih =>
    intro _ hall
    have hx : x = a := hall x (by simp)
    subst hx
    cases xs with
    | nil => simp
    | cons y ys =>
      have hy : y = x := hall y (by simp)
      have hmem : x ∈ y :: ys := by rw [hy]; simp
      rw [List.dedup_cons_of_mem (by simpa [List.mem_dedup] using hmem)]
      exact ih (by simp) (fun z hz => hall z (by simp [hz]))

theorem perm_pair_cases {a b : α} :
    ∀ {l : List α}, l.Perm [a, b] → l = [a, b] ∨ l = [b, a] := by
  intro l h
  have hl := h.length_eq
  cases l with
  | nil => simp at hl
  | cons x t =>
    cases t with
    | nil => simp at hl
    | cons y t2 =>
      cases t2 with
      | cons z t3 => simp at hl
      | nil =>
        have hx : x ∈ ([a, b] : List α) := h.subset (by simp)
        simp only [List.mem_cons, List.mem_singleton] at hx
        rcases hx with rfl | hx
        · left
          have h2 := (List.perm_cons x).mp h
          rw [List.perm_singleton.mp h2]
        · rcases hx with rfl | hfalse
          · right
            have hswap : ([a, x] : List α).Perm [x, a] := List.Perm.swap x a []
            have h2 := (List.perm_cons x).mp (h.trans hswap)
            rw [List.perm_singleton.mp h2]
          · simp at hfalse

theorem nodup_filter_ne_length [DecidableEq α] (a : α) :
    ∀ (l : List α), l.Nodup →
    (l.filter (fun x => x ≠ a)).length =
      if a ∈ l then l.length - 1 else l.length := by
  intro l
  induction l with
  | nil => intro _; simp
  | cons x xs ih =>
    intro hnd
    have hxs : xs.Nodup := (List.nodup_cons.mp hnd).2
    have hxmem : x ∉ xs := (List.nodup_cons.mp hnd).1
    by_cases hxa : x = a
    · subst hxa
      rw [List.filter_cons_of_neg (by simp)]
      rw [ih hxs, if_neg hxmem, if_pos (by simp)]
      simp
    · rw [List.filter_cons_of_pos (by simp [hxa])]
      rw [List.length_cons, ih hxs]
      by_cases hmem : a ∈ xs
      · rw [if_pos hmem, if_pos (by simp [hmem])]
        have hlen : 1 ≤ xs.length := List.length_pos.mpr (by rintro rfl; simp at hmem)
        simp only [List.length_cons]
        omega
      · have hnotm : a ∉ x :: xs := by
          simp only [List.mem_cons]
          push_neg
          exact ⟨fun h => hxa h.symm, hmem⟩
        rw [if_neg hmem, if_neg hnotm]
        simp

/-! ## More concrete instances -/

/-- The feature the embedding computes for the scenario sentence with
`max_seq_length = 10` (label ids under the built vocabulary
`["O", "B-LOC", "B-PER"]`). -/
def johnFeatures : InputFeatures :=
  { uniqueId := 1000000000
    exampleIndex := 0
    tokens := ["[CLS]", "John", "lives", "in", "Paris", "[SEP]"]
    tokToOrig := [0, 1, 2, 3]
    inputIds := [1, 1, 1, 1, 1, 1, 0, 0, 0, 0]
    inputMask := [1, 1, 1, 1, 1, 1, 0, 0, 0, 0]
    lossMask := [1, 1, 1, 1, 1, 1, 0, 0, 0, 0]
    segmentIds := [0, 0, 0, 0, 0, 0, 0, 0, 0, 0]
    labelIds := some [0, 2, 0, 0, 1, 0, 0, 0, 0, 0] }

/-- A two-word unlabeled sentence. -/
def johnUnsupExample : UnsupervisedExample := { tokens := ["John", "lives"] }

/-- The feature the embedding computes for `johnUnsupExample` with
`max_seq_length = 10`. -/
def johnUnsupFeatures : InputFeatures :=
  { uniqueId := 2000000000
    exampleIndex := 0
    tokens := ["[CLS]", "John", "lives", "[SEP]"]
    tokToOrig := [0, 1]
    inputIds := [1, 1, 1, 1, 0, 0, 0, 0, 0, 0]
    inputMask := [1, 1, 1, 1, 0, 0, 0, 0, 0, 0]
    lossMask := [1, 1, 1, 1, 0, 0, 0, 0, 0, 0]
    segmentIds := [0, 0, 0, 0, 0, 0, 0, 0, 0, 0]
    labelIds := none }

/-- A vocabulary whose accumulated set is exactly
`{"O", "B-PER", "I-PER"}` (with a duplicate insertion). -/
def vocabC3 : LabelVocab :=
  { labelSet := ["I-PER", "O", "B-PER", "I-PER"], labels := [], labelsDict := [] }

/-- A vocabulary over a corpus in which `"O"` never occurs. -/
def vocabC10 : LabelVocab :=
  { labelSet := ["B-PER", "I-PER", "B-PER"], labels := [], labelsDict := [] }

/-- A scheduler state for the supervised-loss scenario. -/
def tsaStateC5 : TSAState :=
  { shape := TSAShape.constant (1/2), numClasses := 9, numSteps := 100, step := 0 }

/-- A batch position whose gold-label probability (1) exceeds every
threshold below one. -/
def posC5 : TSAPos := { goldProb := 1, nll := 0, lossMaskBit := 1 }

/-! ## Claim C3 -/

/-- Claim C3: for a `LabelVocab` whose accumulated label set is exactly
`{"O", "B-PER", "I-PER"}`, `build()` produces the frozen ordered list
`["O", "B-PER", "I-PER"]` (`"O"` first, the rest lexicographically
sorted), and building again on the unchanged set yields the identical
list and identical label-to-id mapping. -/
theorem c3_label_vocab_build (v : LabelVocab)
    (h : ∀ l, l ∈ v.labelSet ↔ l ∈ (["O", "B-PER", "I-PER"] : List String)) :
    v.build.labels = ["O", "B-PER", "I-PER"] ∧
    v.build.build.labels = v.build.labels ∧
    v.build.build.labelsDict = v.build.labelsDict := by
  refine ⟨?_, rfl, rfl⟩
  show buildLabels v.labelSet = ["O", "B-PER", "I-PER"]
  have hF : ∀ l, l ∈ v.labelSet.dedup.filter (fun l => l ≠ "O") ↔
      l ∈ (["B-PER", "I-PER"] : List String) := by
    intro l
    simp only [List.mem_filter, List.mem_dedup, h l, decide_eq_true_eq]
    constructor
    · rintro ⟨hm, hne⟩
      simp only [List.mem_cons, List.not_mem_nil, or_false] at hm ⊢
      rcases hm with rfl | hm
      · exact absurd rfl hne
      · exact hm
    · intro hm
      refine ⟨?_, ?_⟩
      · simp only [List.mem_cons, List.not_mem_nil, or_false] at hm ⊢
        rcases hm with rfl | rfl
        · simp
        · simp
      · simp only [List.mem_cons, List.not_mem_nil, or_false] at hm
        rcases hm with rfl | rfl
        · decide
        · decide
  have hnd : (v.labelSet.dedup.filter (fun l => l ≠ "O")).Nodup :=
    (List.nodup_dedup _).filter _
  have hperm : (v.labelSet.dedup.filter (fun l => l ≠ "O")).Perm ["B-PER", "I-PER"] :=
    (List.perm_ext_iff_of_nodup hnd (by decide)).mpr hF
  unfold buildLabels
  rcases perm_pair_cases hperm with he | he <;> rw [he] <;> exact rfl

/-- Witness for C3 at a concrete vocabulary. -/
theorem c3_label_vocab_build_witness :
    vocabC3.build.labels = ["O", "B-PER", "I-PER"] :=
  (c3_label_vocab_build vocabC3 (by intro l; constructor <;> (intro hm; simp only [vocabC3, List.mem_cons, List.not_mem_nil, or_false] at hm ⊢; tauto))).1

/-! ## Claim C9 -/

/-- Claim C9: once frozen by `build()`, mutating the accumulated label
set through any sequence of `update` calls does not change any assigned
label id: `convert_labels_to_ids` answers identically before and after
the mutations (the id dict is only recomputed by `build`). -/
theorem c9_update_preserves_ids (v : LabelVocab) (exs : List NERExample) (ls : List String) :
    (exs.foldl LabelVocab.update v).convertLabelsToIds ls = v.convertLabelsToIds ls := by
  induction exs generalizing v with
  | nil => rfl
  | cons e es ih => exact ih (v.update e)

/-! ## Claim C10 -/

/-- Claim C10: `len(vocab)` is the number of distinct observed labels,
while `build()` unconditionally places `"O"` first, so the frozen list
has length `len(vocab)` iff `"O"` was observed; for a corpus without
`"O"` the frozen list is one entry longer. -/
theorem c10_size_vs_frozen_length (v : LabelVocab) :
    (v.build.labels.length = v.size ↔ "O" ∈ v.labelSet) ∧
    ("O" ∉ v.labelSet → v.build.labels.length = v.size + 1) := by
  have hlen : v.build.labels.length
      = 1 + (v.labelSet.dedup.filter (fun l => l ≠ "O")).length := by
    show (buildLabels v.labelSet).length = _
    unfold buildLabels
    rw [List.length_cons, List.length_insertionSort]
    omega
  have hfl := nodup_filter_ne_length "O" v.labelSet.dedup (List.nodup_dedup _)
  have hsize : v.size = v.labelSet.dedup.length := rfl
  constructor
  · rw [hlen, hfl]
    by_cases hd : "O" ∈ v.labelSet.dedup
    · rw [if_pos hd]
      have h1 : 1 ≤ v.labelSet.dedup.length := by
        have := List.ne_nil_of_mem hd
        have := List.length_pos.mpr this
        omega
      constructor
      · intro _; exact List.mem_dedup.mp hd
      · intro _; omega
    · rw [if_neg hd]
      constructor
      · intro heq; omega
      · intro hm; exact absurd (List.mem_dedup.mpr hm) hd
  · intro hnm
    rw [hlen, hfl, if_neg (fun hd => hnm (List.mem_dedup.mp hd)), hsize]
    omega

/-- Witness for C10 at a concrete `"O"`-free vocabulary. -/
theorem c10_size_vs_frozen_length_witness :
    "O" ∉ vocabC10.labelSet ∧ vocabC10.build.labels.length = vocabC10.size + 1 :=
  ⟨by decide, (c10_size_vs_frozen_length vocabC10).2 (by decide)⟩

/-! ## Claim C6 -/

/-- Claim C6: when the reconstructed clean labels of the unsupervised
evaluator consist solely of the background tag `"O"`, the evaluator
returns `(0, 0, 0)` and no division by zero is reached. -/
theorem c6_all_background_zero (orig pert : List String)
    (hne : orig ≠ []) (hO : ∀ l ∈ orig, l = "O") :
    evaluateUnsupervisedLabels orig pert = Except.ok (0, 0, 0) := by
  unfold evaluateUnsupervisedLabels
  rw [if_pos (dedup_eq_single "O" orig hne hO)]

/-- Witness for C6 at a concrete all-background prediction. -/
theorem c6_all_background_zero_witness :
    evaluateUnsupervisedLabels ["O", "O"] ["O", "B-PER"] = Except.ok (0, 0, 0) :=
  c6_all_background_zero ["O", "O"] ["O", "B-PER"] (by decide) (by decide)

/-! ## Claim C5 -/

/-- Claim C5: if the scheduler's `apply` filters out every position of
a supervised batch -- every gold-label probability already exceeds the
current threshold -- the model's forward returns a supervised loss of
exactly `0`, and no exception is raised. -/
theorem c5_empty_filter_zero_loss (st : TSAState) (ps : List TSAPos)
    (h : ∀ p ∈ ps, st.stepAdvance.currentThreshold < p.goldProb) :
    forwardSupervisedLoss (some st) ps = Except.ok 0 := by
  have hfil : tsaApply st.stepAdvance.currentThreshold ps = [] := by
    apply List.filter_eq_nil.mpr
    intro p hp
    have hnlt : ¬ p.goldProb < st.stepAdvance.currentThreshold :=
      not_lt.mpr (le_of_lt (h p hp))
    simp [hnlt]
  simp only [forwardSupervisedLoss]
  rw [hfil]
  rfl

/-- Witness for C5 at a concrete state and batch. -/
theorem c5_empty_filter_zero_loss_witness :
    forwardSupervisedLoss (some tsaStateC5) [posC5] = Except.ok 0 :=
  c5_empty_filter_zero_loss tsaStateC5 [posC5] (by
    intro p hp
    simp only [List.mem_singleton] at hp
    subst hp
    norm_num [tsaStateC5, posC5, TSAState.stepAdvance, TSAState.currentThreshold,
      tsaThreshold])

/-! ## Claim C4 -/

/-- Claim C4, counterexample: the `constant` shape holds a fixed value
at every step, so it cannot attain both required boundary values
`τ(0) = 1/9` and `τ(T) = 1`; shown here for the fixed value `1/9`
with `T = 100`. -/
theorem c4_boundary_counterexample :
    ¬ (tsaThreshold (TSAShape.constant (1/9)) 9 100 0 = 1/9 ∧
       tsaThreshold (TSAShape.constant (1/9)) 9 100 100 = 1) := by
  intro h
  have h2 := h.2
  norm_num [tsaThreshold] at h2

/-- Claim C4 as amended: for the three annealed shapes (`log`,
`linear`, `exp`) the threshold satisfies `τ(0) = 1/K`, `τ(T) = 1` and
is monotonically non-decreasing over `0..T`; the `constant` shape is
trivially non-decreasing but merely holds its fixed value. -/
theorem c4_amended_threshold (K : ℚ) (T : ℕ) (hK : 1 ≤ K) (hT : 0 < T) :
    (∀ sh, sh = TSAShape.log ∨ sh = TSAShape.linear ∨ sh = TSAShape.exp →
      tsaThreshold sh K T 0 = 1 / K ∧ tsaThreshold sh K T T = 1 ∧
      ∀ s t : ℕ, s ≤ t → t ≤ T → tsaThreshold sh K T s ≤ tsaThreshold sh K T t) ∧
    (∀ c : ℚ, ∀ s t : ℕ, s ≤ t → t ≤ T →
      tsaThreshold (TSAShape.constant c) K T s ≤ tsaThreshold (TSAShape.constant c) K T t) := by
  have hK0 : (0:ℚ) < K := lt_of_lt_of_le one_pos hK
  have hKinv : 1 / K ≤ 1 := by rw [div_le_one hK0]; exact hK
  have h1K : (0:ℚ) ≤ 1 - 1 / K := by linarith
  have hT0 : (0:ℚ) < (T:ℚ) := by exact_mod_cast hT
  have hone : ((T:ℕ):ℚ) / (T:ℚ) = 1 := div_self (ne_of_gt hT0)
  constructor
  · intro sh hsh
    have hbounds : ∀ s t : ℕ, s ≤ t → t ≤ T →
        (s:ℚ)/(T:ℚ) ≤ (t:ℚ)/(T:ℚ) ∧ (t:ℚ)/(T:ℚ) ≤ 1 ∧ (0:ℚ) ≤ (s:ℚ)/(T:ℚ) := by
      intro s t hst htT
      refine ⟨(div_le_div_right hT0).mpr (by exact_mod_cast hst), ?_, by positivity⟩
      rw [div_le_one hT0]
      exact_mod_cast htT
    rcases hsh with rfl | rfl | rfl
    · refine ⟨by simp [tsaThreshold, tsaAlpha], ?_, ?_⟩
      · simp only [tsaThreshold, tsaAlpha]
        rw [hone]
        ring
      · intro s t hst htT
        obtain ⟨hab, hb1, ha0⟩ := hbounds s t hst htT
        simp only [tsaThreshold, tsaAlpha]
        have halpha : (s:ℚ)/(T:ℚ) * (2 - (s:ℚ)/(T:ℚ)) ≤ (t:ℚ)/(T:ℚ) * (2 - (t:ℚ)/(T:ℚ)) := by
          nlinarith
        nlinarith
    · refine ⟨by simp [tsaThreshold, tsaAlpha], ?_, ?_⟩
      · simp only [tsaThreshold, tsaAlpha]
        rw [hone]
        ring
      · intro s t hst htT
        obtain ⟨hab, hb1, ha0⟩ := hbounds s t hst htT
        simp only [tsaThreshold, tsaAlpha]
        nlinarith
    · refine ⟨by simp [tsaThreshold, tsaAlpha], ?_, ?_⟩
      · simp only [tsaThreshold, tsaAlpha]
        rw [hone]
        ring
      · intro s t hst htT
        obtain ⟨hab, hb1, ha0⟩ := hbounds s t hst htT
        simp only [tsaThreshold, tsaAlpha]
        have halpha : (s:ℚ)/(T:ℚ) * ((s:ℚ)/(T:ℚ)) ≤ (t:ℚ)/(T:ℚ) * ((t:ℚ)/(T:ℚ)) := by
          nlinarith
        nlinarith
  · intro c s t _ _
    simp [tsaThreshold]

/-- Witness for the amended C4 at `K = 9`, `T = 100`, shape `log`. -/
theorem c4_amended_threshold_witness :
    tsaThreshold TSAShape.log 9 100 0 = 1 / 9 ∧ tsaThreshold TSAShape.log 9 100 100 = 1 :=
  ⟨((c4_amended_threshold 9 100 (by norm_num) (by norm_num)).1 TSAShape.log (Or.inl rfl)).1,
   ((c4_amended_threshold 9 100 (by norm_num) (by norm_num)).1 TSAShape.log (Or.inl rfl)).2.1⟩

/-! ## Claim C8 -/

/-- Claim C8: a cache file that is missing or fails to deserialize is
non-fatal -- the features are recomputed from the examples and a fresh
cache is written, and the resulting feature list is identical to the
one produced by a run with no cache file present (for both the
supervised and the unsupervised cache paths). -/
theorem c8_cache_recovery (vocab : LabelVocab) (tokenize : String → List String)
    (tokenToId : String → ℕ) (msl : ℕ) (exs : List NERExample)
    (uexs : List UnsupervisedExample) (fs ufs : List InputFeatures)
    (hconv : convertExamplesToFeatures vocab tokenize tokenToId msl exs = some fs)
    (huconv : convertUnsupervisedExamplesToFeatures tokenize tokenToId msl uexs = some ufs) :
    loadTrainFeatures CacheOutcome.corrupt vocab tokenize tokenToId msl exs
      = some (fs, CacheOutcome.good fs) ∧
    loadTrainFeatures CacheOutcome.corrupt vocab tokenize tokenToId msl exs
      = loadTrainFeatures CacheOutcome.missing vocab tokenize tokenToId msl exs ∧
    loadUnsupervisedFeatures CacheOutcome.corrupt tokenize tokenToId msl uexs
      = some (ufs, CacheOutcome.good ufs) ∧
    loadUnsupervisedFeatures CacheOutcome.corrupt tokenize tokenToId msl uexs
      = loadUnsupervisedFeatures CacheOutcome.missing tokenize tokenToId msl uexs := by
  unfold loadTrainFeatures loadUnsupervisedFeatures
  rw [hconv, huconv]
  exact ⟨rfl, rfl, rfl, rfl⟩

/-- Witness for C8 at the concrete scenario data. -/
theorem c8_cache_recovery_witness :
    loadTrainFeatures CacheOutcome.corrupt johnVocab demoTokenize demoTokenToId 10 [johnExample]
      = some ([johnFeatures], CacheOutcome.good [johnFeatures]) :=
  (c8_cache_recovery johnVocab demoTokenize demoTokenToId 10 [johnExample]
    [johnUnsupExample] [johnFeatures] [johnUnsupFeatures] rfl rfl).1

/-! ## Claim C7 -/

/-- Claim C7: every feature produced by either conversion has all its
parallel arrays -- input ids, attention mask, loss mask, segment ids
and (for labeled features) label ids -- of length exactly
`max_seq_length`; unlabeled features carry no label ids. -/
theorem c7_parallel_array_lengths :
    (∀ (vocab : LabelVocab) (tokenize : String → List String) (tokenToId : String → ℕ)
       (msl i : ℕ) (ex : NERExample) (f : InputFeatures),
       convertOne vocab tokenize tokenToId msl i ex = some f →
       f.inputIds.length = msl ∧ f.inputMask.length = msl ∧ f.lossMask.length = msl ∧
       f.segmentIds.length = msl ∧
       ∃ lids, f.labelIds = some lids ∧ lids.length = msl) ∧
    (∀ (tokenize : String → List String) (tokenToId : String → ℕ)
       (msl i : ℕ) (ex : UnsupervisedExample) (f : InputFeatures),
       convertUnsupervisedOne tokenize tokenToId msl i ex = some f →
       f.inputIds.length = msl ∧ f.inputMask.length = msl ∧ f.lossMask.length = msl ∧
       f.segmentIds.length = msl ∧ f.labelIds = none) := by
  constructor
  · intro vocab tokenize tokenToId msl i ex f h
    simp only [convertOne] at h
    split at h
    · exact absurd h (by simp)
    · split at h
      · rename_i hcond
        injection h with hf
        subst hf
        exact ⟨hcond.1, hcond.2.1, hcond.2.2.1, hcond.2.2.2.1, _, rfl, hcond.2.2.2.2⟩
      · exact absurd h (by simp)
  · intro tokenize tokenToId msl i ex f h
    simp only [convertUnsupervisedOne] at h
    split at h
    · rename_i hcond
      injection h with hf
      subst hf
      exact ⟨hcond.1, hcond.2.1, hcond.2.2.1, hcond.2.2.2, rfl⟩
    · exact absurd h (by simp)

/-- Witness for C7 at the concrete labeled and unlabeled scenario
features. -/
theorem c7_parallel_array_lengths_witness :
    johnFeatures.inputIds.length = 10 ∧ johnUnsupFeatures.inputMask.length = 10 :=
  ⟨(c7_parallel_array_lengths.1 johnVocab.build demoTokenize demoTokenToId 10 0
      johnExample johnFeatures rfl).1,
   (c7_parallel_array_lengths.2 demoTokenize demoTokenToId 10 0
      johnUnsupExample johnUnsupFeatures rfl).2.1⟩

/-! ## Claim C1 -/

/-- Claim C1, counterexample: for the scenario sentence
`"John lives in Paris"` with one subword per word and
`max_seq_length = 10`, the code produces
`loss_mask = [1,1,1,1,1,1,0,0,0,0]` -- the `[CLS]` and `[SEP]`
positions carry loss-mask `1`, not the claimed
`[0,1,1,1,1,0,0,0,0,0]` (the construction only zeroes `##`
continuation pieces, and the markers are not such pieces). -/
theorem c1_loss_mask_counterexample :
    (convertExamplesToFeatures johnVocab demoTokenize demoTokenToId 10 [johnExample]).map
        (fun fs => fs.map InputFeatures.lossMask) = some [[1, 1, 1, 1, 1, 1, 0, 0, 0, 0]] ∧
    ([1, 1, 1, 1, 1, 1, 0, 0, 0, 0] : List ℕ) ≠ [0, 1, 1, 1, 1, 0, 0, 0, 0, 0] :=
  ⟨rfl, by decide⟩

/-- Claim C1 as amended: for every labeled example converted by
`convert_examples_to_features`, the loss mask is `1` exactly at the
non-padding positions whose token does not start with the wordpiece
continuation marker `##` -- that is, at head wordpieces and also at the
`[CLS]`/`[SEP]` markers -- and `0` at tail wordpieces and padding. -/
theorem c1_loss_mask_amended (vocab : LabelVocab) (tokenize : String → List String)
    (tokenToId : String → ℕ) (msl i : ℕ) (ex : NERExample) (f : InputFeatures)
    (hconv : convertOne vocab tokenize tokenToId msl i ex = some f) :
    (∀ j, j < f.tokens.length →
      f.lossMask.get? j
        = (f.tokens.get? j).map (fun t => if strStartsWith t "##" then (0:ℕ) else 1)) ∧
    (∀ j, f.tokens.length ≤ j → j < msl → f.lossMask.get? j = some (0:ℕ)) := by
  simp only [convertOne] at hconv
  split at hconv
  · exact absurd hconv (by simp)
  · split at hconv
    · injection hconv with hf
      subst hf
      constructor
      · intro j hj
        simp only [] at hj ⊢
        rw [List.get?_append (by simpa using hj), List.get?_map]
      · intro j hjge hjlt
        simp only [] at hjge ⊢
        rw [List.get?_append_right (by simpa using hjge)]
        apply replicate_get?
        simp only [List.length_map] at hjge ⊢
        omega
    · exact absurd hconv (by simp)

/-- Witness for the amended C1 at the scenario feature: position 0
(`[CLS]`, not a `##` piece) carries loss-mask 1, position 6 (padding)
carries 0. -/
theorem c1_loss_mask_amended_witness :
    convertOne johnVocab.build demoTokenize demoTokenToId 10 0 johnExample
      = some johnFeatures ∧
    johnFeatures.lossMask.get? 0
      = (johnFeatures.tokens.get? 0).map (fun t => if strStartsWith t "##" then (0:ℕ) else 1) ∧
    johnFeatures.lossMask.get? 6 = some (0:ℕ) :=
  ⟨rfl,
   (c1_loss_mask_amended johnVocab.build demoTokenize demoTokenToId 10 0
      johnExample johnFeatures rfl).1 0 (by decide),
   (c1_loss_mask_amended johnVocab.build demoTokenize demoTokenToId 10 0
      johnExample johnFeatures rfl).2 6 (by decide) (by decide)⟩

/-! ## Lemmas for the reconstruction round trip (claim C2) -/

theorem alignWords_component_lengths (tokenize : String → List String) :
    ∀ (ws labs : List String) (i : ℕ),
    (alignWords tokenize ws labs i).2.1.length = (alignWords tokenize ws labs i).1.length ∧
    (alignWords tokenize ws labs i).2.2.length = (alignWords tokenize ws labs i).1.length := by
  intro ws
  induction ws with
  | nil => intro labs i; simp [alignWords]
  | cons w ws ih =>
    intro labs i
    cases labs with
    | nil => simp [alignWords]
    | cons lab labs =>
      simp [alignWords, (ih labs (i + 1)).1, (ih labs (i + 1)).2]

theorem enumTokens_append :
    ∀ (l₁ l₂ : List String) (i : ℕ),
    enumTokens i (l₁ ++ l₂) = enumTokens i l₁ ++ enumTokens (i + l₁.length) l₂ := by
  intro l₁
  induction l₁ with
  | nil => intro l₂ i; simp [enumTokens]
  | cons t ts ih =>
    intro l₂ i
    have hidx : i + 1 + ts.length = i + (ts.length + 1) := by omega
    simp only [List.cons_append, List.append_eq, enumTokens, ih l₂ (i + 1), hidx,
      List.length_cons]

theorem predWalk_append_marker (origAt : ℕ → Option ℕ) (raw exl : List String) (k : ℕ) :
    ∀ (l : List (ℕ × String)) (last : Int),
    predWalk origAt raw exl (l ++ [(k, "[SEP]")]) last = predWalk origAt raw exl l last := by
  intro l
  induction l with
  | nil =>
    intro last
    simp [predWalk]
  | cons ht l ih =>
    intro last
    obtain ⟨i, t⟩ := ht
    simp only [List.cons_append, List.append_eq, predWalk]
    split
    · exact ih last
    · cases horigAt : origAt i with
      | none => rfl
      | some o =>
        simp only []
        split
        · exact ih last
        · rw [ih ((o : ℕ) : Int)]

theorem predWalk_skip_run (origAt : ℕ → Option ℕ) (raw exl : List String) (o : ℕ) :
    ∀ (ts : List String) (i : ℕ) (rest : List (ℕ × String)),
    (∀ q ∈ ts, ¬(q = "[CLS]" ∨ q = "[SEP]")) →
    (∀ j, j < ts.length → origAt (i + j) = some o) →
    predWalk origAt raw exl (enumTokens i ts ++ rest) ((o : ℕ) : Int)
      = predWalk origAt raw exl rest ((o : ℕ) : Int) := by
  intro ts
  induction ts with
  | nil => intro i rest _ _; rfl
  | cons q ts ih =>
    intro i rest hm horig
    have hq : ¬(q = "[CLS]" ∨ q = "[SEP]") := hm q (by simp)
    have ho : origAt i = some o := by simpa using horig 0 (by simp)
    simp only [enumTokens, List.cons_append, List.append_eq, predWalk, if_neg hq, ho,
      eq_self_iff_true, if_true]
    refine ih (i + 1) rest (fun q2 hq2 => hm q2 (by simp [hq2])) ?_
    intro j hj
    have := horig (1 + j) (by simp; omega)
    rwa [show i + (1 + j) = i + 1 + j by omega] at this

theorem predWalk_alignWords (tokenize : String → List String) (origAt : ℕ → Option ℕ)
    (raw exl : List String) :
    ∀ (ws labs : List String) (wi i : ℕ) (last : Int),
    ws.length = labs.length →
    (∀ w ∈ ws, tokenize w ≠ [] ∧ ∀ p ∈ tokenize w, ¬(p = "[CLS]" ∨ p = "[SEP]")) →
    (∀ j, j < (alignWords tokenize ws labs wi).2.1.length →
      origAt (i + j) = (alignWords tokenize ws labs wi).2.1.get? j) →
    (∀ j, j < (alignWords tokenize ws labs wi).2.2.length →
      raw.get? (i + j) = (alignWords tokenize ws labs wi).2.2.get? j) →
    (∀ j, j < labs.length → exl.get? (wi + j) = labs.get? j) →
    last < (wi : Int) →
    predWalk origAt raw exl (enumTokens i (alignWords tokenize ws labs wi).1) last
      = some (labs, labs) := by
  intro ws
  induction ws with
  | nil =>
    intro labs wi i last hW _ _ _ _ _
    have hlabs : labs = [] := by
      cases labs
      · rfl
      · simp at hW
    subst hlabs
    simp [alignWords, enumTokens, predWalk]
  | cons w ws ih =>
    intro labs wi i last hW hne horig hraw hexl hlast
    cases labs with
    | nil => simp at hW
    | cons lab labs =>
      obtain ⟨hne_w, hmark_w⟩ := hne w (by simp)
      have hAW1 : (alignWords tokenize (w :: ws) (lab :: labs) wi).1
          = tokenize w ++ (alignWords tokenize ws labs (wi + 1)).1 := by
        simp [alignWords]
      have hAW2 : (alignWords tokenize (w :: ws) (lab :: labs) wi).2.1
          = (tokenize w).map (fun _ => wi) ++ (alignWords tokenize ws labs (wi + 1)).2.1 := by
        simp [alignWords]
      have hAW3 : (alignWords tokenize (w :: ws) (lab :: labs) wi).2.2
          = (tokenize w).map (fun _ => lab) ++ (alignWords tokenize ws labs (wi + 1)).2.2 := by
        simp [alignWords]
      rw [hAW1]
      rw [hAW2] at horig
      rw [hAW3] at hraw
      cases hsubs : tokenize w with
      | nil => exact absurd hsubs hne_w
      | cons p ps =>
        rw [hsubs] at horig hraw
        have hpm : ¬(p = "[CLS]" ∨ p = "[SEP]") := hmark_w p (by rw [hsubs]; simp)
        have ho : origAt i = some wi := by
          have h0 := horig 0 (by simp)
          simpa using h0
        have hraw_i : raw.get? i = some lab := by
          have h0 := hraw 0 (by simp)
          simpa using h0
        have hexl_wi : exl.get? wi = some lab := by
          have h0 := hexl 0 (by simp)
          simpa using h0
        simp only [List.cons_append, List.append_eq, enumTokens, predWalk, if_neg hpm, ho,
          if_neg (ne_of_gt hlast), hraw_i, hexl_wi]
        rw [enumTokens_append]
        have hskip := predWalk_skip_run origAt raw exl wi ps (i + 1)
          (enumTokens (i + 1 + ps.length) (alignWords tokenize ws labs (wi + 1)).1)
          (fun q hq => hmark_w q (by rw [hsubs]; simp [hq]))
          (fun j hj => by
            have h1 := horig (1 + j) (by simp [List.length_map]; omega)
            rw [show i + (1 + j) = i + 1 + j from by omega] at h1
            rw [h1, show (1:ℕ) + j = j + 1 from by omega,
              List.get?_append (by simp [List.length_map]; omega),
              List.get?_map, List.get?_cons_succ, List.get?_eq_get hj]
            rfl)
        rw [hskip]
        have hih := ih labs (wi + 1) (i + 1 + ps.length) ((wi : ℕ) : Int)
          (by simpa using hW)
          (fun w2 hw2 => hne w2 (by simp [hw2]))
          (fun j hj => by
            have h1 := horig ((ps.length + 1) + j) (by simp [List.length_map]; omega)
            rw [show i + ((ps.length + 1) + j) = i + 1 + ps.length + j from by omega] at h1
            rw [h1, List.get?_append_right (by simp [List.length_map])]
            congr 1
            simp [List.length_map])
          (fun j hj => by
            have h1 := hraw ((ps.length + 1) + j) (by simp [List.length_map]; omega)
            rw [show i + ((ps.length + 1) + j) = i + 1 + ps.length + j from by omega] at h1
            rw [h1, List.get?_append_right (by simp [List.length_map])]
            congr 1
            simp [List.length_map])
          (fun j hj => by
            have h1 := hexl (1 + j) (by simp; omega)
            rw [show wi + (1 + j) = wi + 1 + j from by omega] at h1
            rw [h1, show (1:ℕ) + j = j + 1 from by omega, List.get?_cons_succ])
          (by push_cast; omega)
        rw [hih]

/-! ## Claim C2 -/

/-- Claim C2, round trip: for every labeled example whose full subword
sequence fits within `max_seq_length - 2` (no truncation), running the
reconstruction walk of `write_predictions` on argmax scores that equal
the feature's gold label ids -- skipping `[CLS]`/`[SEP]`, keeping only
the first position of each original-word index -- yields exactly the
example's original label sequence (and the parallel true-label sequence
it collects is that same sequence, hence of equal length).  The
tokenizer collaborator is assumed to produce at least one piece per
word and never a piece spelled like a marker. -/
theorem c2_gold_roundtrip (v : LabelVocab) (tokenize : String → List String)
    (tokenToId : String → ℕ) (msl i : ℕ) (ex : NERExample) (f : InputFeatures)
    (lids : List ℕ)
    (hlen : ex.tokens.length = ex.labels.length)
    (hpieces : ∀ w ∈ ex.tokens, tokenize w ≠ [] ∧
      ∀ p ∈ tokenize w, ¬(p = "[CLS]" ∨ p = "[SEP]"))
    (hfit : (alignWords tokenize ex.tokens ex.labels 0).1.length ≤ msl - 2)
    (hconv : convertOne v.build tokenize tokenToId msl i ex = some f)
    (hlids : f.labelIds = some lids) :
    writePredictionsOne v.build ex f lids = some (ex.labels, ex.labels) := by
  simp only [convertOne] at hconv
  split at hconv
  · exact absurd hconv (by simp)
  · rename_i labelIds0 heq
    split at hconv
    · rename_i hcond
      injection hconv with hf
      have hlen22 := (alignWords_component_lengths tokenize ex.tokens ex.labels 0).2
      have htl : ("[CLS]" :: (pyTake ((msl:Int) - 2)
          (alignWords tokenize ex.tokens ex.labels 0).1 ++ ["[SEP]"])).length ≤ msl := by
        have h1 := hcond.1
        simp only [List.length_append, List.length_map, List.length_replicate] at h1
        omega
      have hmsl2 : 2 ≤ msl := by
        simp only [List.length_cons, List.length_append] at htl
        omega
      have h0 : (0:Int) ≤ (msl:Int) - 2 := by omega
      have h2N : ((msl:Int) - 2).toNat = msl - 2 := by omega
      have htake1 : pyTake ((msl:Int) - 2) (alignWords tokenize ex.tokens ex.labels 0).1
          = (alignWords tokenize ex.tokens ex.labels 0).1 := by
        simp only [pyTake, if_pos h0, h2N]
        exact List.take_all_of_le hfit
      have htake2 : pyTake ((msl:Int) - 2) (alignWords tokenize ex.tokens ex.labels 0).2.2
          = (alignWords tokenize ex.tokens ex.labels 0).2.2 := by
        simp only [pyTake, if_pos h0, h2N]
        exact List.take_all_of_le (by rw [hlen22]; exact hfit)
      have htok : f.tokens
          = "[CLS]" :: ((alignWords tokenize ex.tokens ex.labels 0).1 ++ ["[SEP]"]) := by
        rw [← hf, htake1]
      have htoF : f.tokToOrig = (alignWords tokenize ex.tokens ex.labels 0).2.1 := by
        rw [← hf]
      have hlab : f.labelIds = some (labelIds0 ++ List.replicate
          (msl - (("[CLS]" :: (pyTake ((msl:Int) - 2)
            (alignWords tokenize ex.tokens ex.labels 0).1 ++ ["[SEP]"])).map tokenToId).length)
          0) := by
        rw [← hf]
      rw [hlab] at hlids
      injection hlids with hl
      subst hl
      rw [htake2] at heq
      have hroundtrip : listMapM (fun id => v.build.labels.get? id) labelIds0
          = some ("O" :: ((alignWords tokenize ex.tokens ex.labels 0).2.2 ++ ["O"])) := by
        refine listMapM_roundtrip _ _ ?_ _ _ heq
        intro l idx hli
        obtain ⟨j, hj, hget⟩ := lookup_labelsDictFrom (buildLabels v.labelSet) 0 l idx hli
        rw [hj, Nat.zero_add]
        exact hget
      have hraw : LabelVocab.convertIdsToLabels v.build (labelIds0 ++ List.replicate
          (msl - (("[CLS]" :: (pyTake ((msl:Int) - 2)
            (alignWords tokenize ex.tokens ex.labels 0).1 ++ ["[SEP]"])).map tokenToId).length)
          0)
          = some (("O" :: ((alignWords tokenize ex.tokens ex.labels 0).2.2 ++ ["O"]))
              ++ List.replicate
                (msl - (("[CLS]" :: (pyTake ((msl:Int) - 2)
                  (alignWords tokenize ex.tokens ex.labels 0).1 ++ ["[SEP]"])).map
                    tokenToId).length)
                "O") :=
        listMapM_append _ _ _ _ _ hroundtrip (listMapM_replicate _ 0 "O" rfl _)
      simp only [writePredictionsOne, hraw]
      rw [htok]
      simp only [enumTokens]
      simp only [predWalk]
      simp only [true_or, if_true]
      rw [enumTokens_append]
      simp only [enumTokens]
      rw [predWalk_append_marker]
      refine predWalk_alignWords tokenize _ _ _ ex.tokens ex.labels 0 1 (-1) hlen hpieces
        ?_ ?_ ?_ (by norm_num)
      · intro j hj
        simp only [tokenToOrigMapLookup, htoF]
        rw [if_neg (by omega)]
        congr 1
        omega
      · intro j hj
        rw [show (1:ℕ) + j = j + 1 from by omega]
        rw [List.get?_append (by simp only [List.length_cons, List.length_append,
          List.length_singleton]; omega)]
        rw [List.get?_cons_succ]
        rw [List.get?_append hj]
      · intro j hj
        rw [Nat.zero_add]
    · exact absurd hconv (by simp)

/-- Witness for C2 at the scenario sentence: reconstructing from the
gold label ids recovers `["B-PER", "O", "O", "B-LOC"]` exactly. -/
theorem c2_gold_roundtrip_witness :
    writePredictionsOne johnVocab.build johnExample johnFeatures
        [0, 2, 0, 0, 1, 0, 0, 0, 0, 0]
      = some (johnExample.labels, johnExample.labels) :=
  c2_gold_roundtrip johnVocab demoTokenize demoTokenToId 10 0 johnExample johnFeatures
    [0, 2, 0, 0, 1, 0, 0, 0, 0, 0] (by decide) (by decide) (by decide) rfl rfl
